import Mathlib

/-
Verification of the type-erased tagged value (IValue) core from
aten/src/ATen/core/ivalue_inl.h: tagged-union construction and extraction,
reference-count bookkeeping of the intrusive-pointer payload, the Future
single-assignment cell, the Object slot vector, the generic conversion
layer, and identity comparison.
-/

namespace IValueModel

/-- Discriminant of the tagged union (the Tag enum referenced throughout
ivalue_inl.h: None, Tensor, Double, Int, Bool, String, Blob, the four
homogeneous list tags, GenericList, GenericDict, Tuple, Object, Future,
Device). -/
inductive Tag where
  | none
  | tensor
  | double
  | int
  | bool
  | string
  | blob
  | intList
  | doubleList
  | boolList
  | tensorList
  | genericList
  | genericDict
  | tuple
  | object
  | future
  | device
deriving DecidableEq, Repr

/-- The tagged value: a discriminant tag, the payload union flattened into
one field per interpretation (as_int, as_bool, as_intrusive_ptr — reading a
member other than the constructed one is what the union would expose), and
the is_intrusive_ptr ownership flag. Raw pointers are modelled as Nat
addresses. -/
structure IValue where
  tag : Tag
  as_int : Int := 0
  as_bool : Bool := false
  as_intrusive_ptr : Nat := 0
  is_intrusive_ptr : Bool := false
deriving DecidableEq, Repr

/-- Modelled from the spec: the default-constructed tagged value (the
IValue() constructor lives in the companion header, not in this file); the
spec says a moved-from or empty value holds the None tag with no owned
pointer. -/
def IValue.noneV : IValue :=
  { tag := Tag.none }

/-- Modelled from the spec: the tag predicates (isNone, isBool, isTensor,
isObject, isFuture, ...) are declared in the companion header; each one
tests the discriminant against its tag. -/
def IValue.isNone (v : IValue) : Bool := v.tag == Tag.none

def IValue.isBool (v : IValue) : Bool := v.tag == Tag.bool

def IValue.isTensor (v : IValue) : Bool := v.tag == Tag.tensor

def IValue.isObject (v : IValue) : Bool := v.tag == Tag.object

/-- Modelled from the spec: clearToNone (defined in the companion header)
resets the source to the None tag with no owned pointer — payload zeroed,
tag set to None, is_intrusive_ptr cleared. -/
def IValue.clearToNone (_v : IValue) : IValue :=
  { tag := Tag.none, as_int := 0, as_bool := false,
    as_intrusive_ptr := 0, is_intrusive_ptr := false }

/-- Fatal contract violation: an AT_ASSERT failure (abort, not a
recoverable exception). -/
inductive Fatal where
  | assertFailed
deriving DecidableEq, Repr

/-- Reference-count heap: the count stored intrusively in each target,
indexed by raw address. -/
def Heap : Type := Nat → Nat

/-- Increment the intrusive reference count of address p (what creating a
new alias does). -/
def Heap.incref (h : Heap) (p : Nat) : Heap :=
  fun q => if q = p then h q + 1 else h q

/-- IValue::moveToIntrusivePtr: reclaim the payload pointer (wrap one
existing unit of ownership, no count change), then clearToNone the source.
Returns (owned raw pointer, heap, new source). -/
def IValue.moveToIntrusivePtr (heap : Heap) (v : IValue) : Nat × Heap × IValue :=
  (v.as_intrusive_ptr, heap, v.clearToNone)

/-- IValue::toIntrusivePtr: reclaim the payload pointer into r, copy it
(incrementing the count), release r without decrementing, and return the
copy; the source value is untouched and the count is up by one. -/
def IValue.toIntrusivePtr (heap : Heap) (v : IValue) : Nat × Heap × IValue :=
  (v.as_intrusive_ptr, heap.incref v.as_intrusive_ptr, v)

/-- IValue::toFuture() && : assert the Future tag, then moveToIntrusivePtr. -/
def IValue.toFuture_rv (heap : Heap) (v : IValue) : Except Fatal (Nat × Heap × IValue) :=
  if v.tag = Tag.future then Except.ok (v.moveToIntrusivePtr heap) else Except.error Fatal.assertFailed

/-- IValue::toString() && : assert the String tag, then moveToIntrusivePtr. -/
def IValue.toString_rv (heap : Heap) (v : IValue) : Except Fatal (Nat × Heap × IValue) :=
  if v.tag = Tag.string then Except.ok (v.moveToIntrusivePtr heap) else Except.error Fatal.assertFailed

/-- IValue::toObject() && : assert the Object tag, then — unlike every
sibling rvalue accessor — call toIntrusivePtr, the borrowing form. -/
def IValue.toObject_rv (heap : Heap) (v : IValue) : Except Fatal (Nat × Heap × IValue) :=
  if v.tag = Tag.object then Except.ok (v.toIntrusivePtr heap) else Except.error Fatal.assertFailed

/-- IValue::toTensor() && : assert the Tensor tag, then moveToIntrusivePtr. -/
def IValue.toTensor_rv (heap : Heap) (v : IValue) : Except Fatal (Nat × Heap × IValue) :=
  if v.tag = Tag.tensor then Except.ok (v.moveToIntrusivePtr heap) else Except.error Fatal.assertFailed

/-- IValue::toBlob() && : assert the Blob tag, then moveToIntrusivePtr. -/
def IValue.toBlob_rv (heap : Heap) (v : IValue) : Except Fatal (Nat × Heap × IValue) :=
  if v.tag = Tag.blob then Except.ok (v.moveToIntrusivePtr heap) else Except.error Fatal.assertFailed

/-- IValue::toIntList() && : assert the IntList tag, then moveToIntrusivePtr. -/
def IValue.toIntList_rv (heap : Heap) (v : IValue) : Except Fatal (Nat × Heap × IValue) :=
  if v.tag = Tag.intList then Except.ok (v.moveToIntrusivePtr heap) else Except.error Fatal.assertFailed

/-- IValue::toDoubleList() && : assert the DoubleList tag, then moveToIntrusivePtr. -/
def IValue.toDoubleList_rv (heap : Heap) (v : IValue) : Except Fatal (Nat × Heap × IValue) :=
  if v.tag = Tag.doubleList then Except.ok (v.moveToIntrusivePtr heap) else Except.error Fatal.assertFailed

/-- IValue::toBoolList() && : assert the BoolList tag, then moveToIntrusivePtr. -/
def IValue.toBoolList_rv (heap : Heap) (v : IValue) : Except Fatal (Nat × Heap × IValue) :=
  if v.tag = Tag.boolList then Except.ok (v.moveToIntrusivePtr heap) else Except.error Fatal.assertFailed

/-- IValue::toTensorList() && : assert the TensorList tag, then moveToIntrusivePtr. -/
def IValue.toTensorList_rv (heap : Heap) (v : IValue) : Except Fatal (Nat × Heap × IValue) :=
  if v.tag = Tag.tensorList then Except.ok (v.moveToIntrusivePtr heap) else Except.error Fatal.assertFailed

/-- IValue::toGenericList() && : assert the GenericList tag, then moveToIntrusivePtr. -/
def IValue.toGenericList_rv (heap : Heap) (v : IValue) : Except Fatal (Nat × Heap × IValue) :=
  if v.tag = Tag.genericList then Except.ok (v.moveToIntrusivePtr heap) else Except.error Fatal.assertFailed

/-- IValue::toGenericDict() && : assert the GenericDict tag, then moveToIntrusivePtr. -/
def IValue.toGenericDict_rv (heap : Heap) (v : IValue) : Except Fatal (Nat × Heap × IValue) :=
  if v.tag = Tag.genericDict then Except.ok (v.moveToIntrusivePtr heap) else Except.error Fatal.assertFailed

/-- IValue::toTuple() && : assert the Tuple tag, then moveToIntrusivePtr
(the reclaimed element-list pointer is wrapped into a TuplePtr). -/
def IValue.toTuple_rv (heap : Heap) (v : IValue) : Except Fatal (Nat × Heap × IValue) :=
  if v.tag = Tag.tuple then Except.ok (v.moveToIntrusivePtr heap) else Except.error Fatal.assertFailed

/-- IValue::isSameIdentity, translated branch for branch: None vs None is
true; two bools compare by value; two tensors compare the payload pointer
(undefined tensors hold the undefined-singleton address and have
is_intrusive_ptr false); a tensor against None is the same identity exactly
when the tensor is undefined; everything else requires both sides to own a
pointer and the pointers to coincide. -/
def IValue.isSameIdentity (v rhs : IValue) : Bool :=
  if v.isNone && rhs.isNone then
    true
  else if v.isBool && rhs.isBool then
    v.as_bool == rhs.as_bool
  else if v.isTensor && rhs.isTensor then
    v.as_intrusive_ptr == rhs.as_intrusive_ptr
  else if v.isTensor && rhs.isNone then
    !v.is_intrusive_ptr
  else if v.isNone && rhs.isTensor then
    !rhs.is_intrusive_ptr
  else
    v.is_intrusive_ptr && rhs.is_intrusive_ptr
      && (v.as_intrusive_ptr == rhs.as_intrusive_ptr)

/-- State of ivalue::Future: the completion flag, the stored value, the
error flag plus stored error message (FutureError.error_msg), and the
pending callback queue. Callbacks are modelled as bare identifiers; an
invocation is recorded in a trace. -/
structure FutureState where
  completed_ : Bool := false
  value_ : IValue := IValue.noneV
  has_error : Bool := false
  error : String := ""
  callbacks : List Nat := []
deriving DecidableEq, Repr

/-- Future::completed(): reads the completion flag. -/
def FutureState.completed (s : FutureState) : Bool := s.completed_

/-- A freshly constructed Future: pending, empty callback queue. -/
def FutureState.fresh : FutureState := {}

/-- Which overload of markCompleted is called: with an output value, or
with a FutureError. -/
inductive MarkKind where
  | val (v : IValue)
  | err (msg : String)
deriving DecidableEq, Repr

/-- Future::fireCallbacks: asserts completed, invokes every queued callback
in order, then clears the queue. Returns (state with empty queue, trace of
invoked callbacks). -/
def FutureState.fireCallbacks (s : FutureState) : Except Fatal (FutureState × List Nat) :=
  if s.completed then
    Except.ok ({ s with callbacks := [] }, s.callbacks)
  else
    Except.error Fatal.assertFailed

/-- Future::markCompleted (both overloads): under the lock, assert not yet
completed and store the value or the error; after releasing the lock, fire
the callbacks. Returns the new state and the trace of callbacks invoked. -/
def FutureState.markCompleted (k : MarkKind) (s : FutureState) : Except Fatal (FutureState × List Nat) :=
  if s.completed then
    Except.error Fatal.assertFailed
  else
    match k with
    | MarkKind.val v => ({ s with completed_ := true, value_ := v } : FutureState).fireCallbacks
    | MarkKind.err m =>
        ({ s with completed_ := true, has_error := true, error := m } : FutureState).fireCallbacks

/-- Future::addCallback: under the lock, if already completed, unlock and
invoke the callback immediately (trace [cb], state unchanged); otherwise
push it onto the queue (empty trace). -/
def FutureState.addCallback (s : FutureState) (cb : Nat) : FutureState × List Nat :=
  if s.completed then
    (s, [cb])
  else
    ({ s with callbacks := s.callbacks ++ [cb] }, [])

/-- Outcome of Future::value(): a fatal assertion (still pending), a thrown
stored error, or the stored value. -/
inductive ValueOutcome where
  | fatal
  | raised (msg : String)
  | returned (v : IValue)
deriving DecidableEq, Repr

/-- Future::value(): assert completed; if has_error, throw the stored
error; otherwise return the stored value. -/
def FutureState.valueOp (s : FutureState) : ValueOutcome :=
  if s.completed then
    if s.has_error then ValueOutcome.raised s.error else ValueOutcome.returned s.value_
  else
    ValueOutcome.fatal

/-- Non-completing operations that may run on a Future between its first
markCompleted and a later one: addCallback with some callback, or a
value()/completed() read (which does not change the state). -/
inductive FOp where
  | addCb (cb : Nat)
  | readValue
deriving DecidableEq, Repr

/-- Apply one non-completing operation to the state. -/
def FutureState.stepF (s : FutureState) : FOp → FutureState
  | FOp.addCb cb => (s.addCallback cb).1
  | FOp.readValue => s

/-- Run a sequence of non-completing operations. -/
def FutureState.runFOps (s : FutureState) (ops : List FOp) : FutureState :=
  ops.foldl FutureState.stepF s

/-- Enqueue a whole list of callbacks through addCallback, accumulating the
trace of immediately invoked callbacks. -/
def FutureState.addAll (s : FutureState) (cbs : List Nat) : FutureState × List Nat :=
  cbs.foldl (fun p cb => ((p.1.addCallback cb).1, p.2 ++ (p.1.addCallback cb).2)) (s, [])

/-- The user-defined record ivalue::Object: the slot vector (the external
schema descriptor is out of scope here). -/
structure Object where
  slots_ : List IValue
deriving DecidableEq, Repr

/-- Object::Object(type, numSlots): slots_.resize(numSlots), i.e. numSlots
default-constructed (None) slot values. -/
def Object.mk0 (numSlots : Nat) : Object :=
  ⟨List.replicate numSlots IValue.noneV⟩

/-- Modelled from the spec: Object::resizeObject is declared in this file
but defined outside src; per the spec, a write beyond the current length
grows the slot vector so the written index is valid — to length slot+1 —
with the intervening new slots left empty/None. -/
def Object.resizeObject (o : Object) (slot : Nat) : Object :=
  ⟨o.slots_ ++ List.replicate (slot + 1 - o.slots_.length) IValue.noneV⟩

/-- Object::setSlot: if slot is at or beyond the current size, resize, then
write slots_[slot] = v. -/
def Object.setSlot (o : Object) (slot : Nat) (v : IValue) : Object :=
  let o1 := if o.slots_.length ≤ slot then o.resizeObject slot else o
  ⟨o1.slots_.set slot v⟩

/-- Object::getSlot: slots_.at(slot), a bounds-checked read that fails
(throws std::out_of_range) beyond the current length. -/
def Object.getSlot (o : Object) (slot : Nat) : Option IValue :=
  o.slots_[slot]?

/-- A sequence of slot operations on an Object. -/
inductive ObjOp where
  | set (slot : Nat) (v : IValue)
  | get (slot : Nat)
deriving DecidableEq, Repr

/-- Apply one slot operation (getSlot does not change the state). -/
def Object.applyOp (o : Object) : ObjOp → Object
  | ObjOp.set i v => o.setSlot i v
  | ObjOp.get _ => o

/-- Run a sequence of slot operations. -/
def Object.runOps (o : Object) (ops : List ObjOp) : Object :=
  ops.foldl Object.applyOp o

/-- The slot indices written by a sequence of operations. -/
def writtenSlots (ops : List ObjOp) : List Nat :=
  ops.filterMap fun op =>
    match op with
    | ObjOp.set i _ => some i
    | ObjOp.get _ => none

/-- Backing-store heap for list containers: each address holds the element
sequence of one reference-counted ListImpl store. -/
def ListHeap (α : Type) : Type := Nat → List α

/-- The rvalue ListPtr extraction underlying to<ListPtr<Elem>>: assert the
matching list tag, reclaim the store address, clearToNone the source. -/
def toListPtr_rv (tg : Tag) (v : IValue) : Except Fatal (Nat × IValue) :=
  if v.tag = tg then Except.ok (v.as_intrusive_ptr, v.clearToNone) else Except.error Fatal.assertFailed

/-- The element-copy loop of generic_to(IValue, _fake_type<std::vector>):
result.push_back(v) for each element of the list, front to back. -/
def copyElems (l : List α) : List α :=
  l.foldl (fun acc e => acc ++ [e]) []

/-- generic_to(IValue, _fake_type<std::vector<Elem>>): extract the typed
list handle from the value, then deep-copy its elements one by one into a
fresh owned vector. -/
def generic_to_vector (heap : ListHeap α) (tg : Tag) (v : IValue) : Except Fatal (List α) :=
  (toListPtr_rv tg v).map fun r => copyElems (heap r.1)

/-- A borrowing typed view over the same backing store (the O(1) handle-reuse
path, e.g. impl::toTypedList over toGenericList): it carries the store
address, so reading it dereferences the heap. -/
def viewRead (heap : ListHeap α) (addr : Nat) : List α :=
  heap addr

/-- Mutation through an aliased list handle: write element i of the store
at the given address (List::set through a ListPtr). -/
def listStoreSet (heap : ListHeap α) (addr i : Nat) (x : α) : ListHeap α :=
  fun q => if q = addr then (heap addr).set i x else heap q

/-- The deep-copy scenario from the spec, built from the embedded
operations: convert the same source twice, mutate element i of the first
result, and also read the backing store through an aliased typed view.
Returns (mutated first copy, second copy, view read). -/
def deepCopyScenario (heap : ListHeap α) (tg : Tag) (v : IValue) (i : Nat) (x : α) :
    Except Fatal (List α × List α × List α) := do
  let r1 ← generic_to_vector heap tg v
  let r2 ← generic_to_vector heap tg v
  let r1m := r1.set i x
  pure (r1m, r2, viewRead heap v.as_intrusive_ptr)

/-- generic_to(IValue, _fake_type<c10::optional<T>>): None converts to the
empty optional, anything else recurses into to<T> (the element conversion
is passed in as conv, itself fallible by fatal assertion). -/
def generic_to_optional (conv : IValue → Except Fatal α) (v : IValue) :
    Except Fatal (Option α) :=
  if v.isNone then
    Except.ok none
  else
    (conv v).map some

/-- IValue::toOptional<T>: if this is None return nullopt, else this->to<T>. -/
def IValue.toOptional (conv : IValue → Except Fatal α) (v : IValue) :
    Except Fatal (Option α) :=
  if v.isNone then
    Except.ok none
  else
    (conv v).map some

/-- IValue::IValue(c10::optional<T>): default-construct to None, then if
the optional holds a value, reassign from that value through the element
constructor mk. -/
def IValue.fromOptional (mk : α → IValue) : Option α → IValue
  | Option.none => IValue.noneV
  | Option.some x => mk x

/-- Lock-relevant events emitted while a Future operation runs: acquiring
and releasing the internal mutex, writing the terminal state, and invoking
a callback body. -/
inductive Ev where
  | acquire
  | release
  | setCompleted
  | invoke (cb : Nat)
deriving DecidableEq, Repr

/-- Event trace of markCompleted: take the lock; if already completed the
assertion aborts while the lock is held (no release, no invocation);
otherwise write the terminal state, release the lock at scope exit, and
only then invoke each queued callback in order. -/
def markCompletedEvents (s : FutureState) : List Ev :=
  if s.completed then
    [Ev.acquire]
  else
    [Ev.acquire, Ev.setCompleted, Ev.release] ++ s.callbacks.map Ev.invoke

/-- Event trace of addCallback: take the lock; if already completed,
explicitly unlock and then invoke the callback; otherwise enqueue under
the lock and release it at scope exit. -/
def addCallbackEvents (s : FutureState) (cb : Nat) : List Ev :=
  if s.completed then
    [Ev.acquire, Ev.release, Ev.invoke cb]
  else
    [Ev.acquire, Ev.release]

/-- Checks that every callback invocation in the trace happens while the
lock is free, threading the lock state left to right from the given
initial state. -/
def invokesUnlocked (locked : Bool) : List Ev → Bool
  | [] => true
  | Ev.acquire :: r => invokesUnlocked true r
  | Ev.release :: r => invokesUnlocked false r
  | Ev.setCompleted :: r => invokesUnlocked locked r
  | Ev.invoke _ :: r => !locked && invokesUnlocked locked r

/-- C5: isSameIdentity compares None vs None as true, booleans by value,
tensors by payload-pointer identity, an undefined tensor and None as
mutually identical, and every other pair as true only when both sides own
a pointer and the owned raw pointers coincide — so two generic lists at
different addresses (whatever their contents) are never the same identity. -/
theorem isSameIdentity_spec (a b : IValue) :
    (a.tag = Tag.none → b.tag = Tag.none → a.isSameIdentity b = true) ∧
    (a.tag = Tag.bool → b.tag = Tag.bool →
      a.isSameIdentity b = (a.as_bool == b.as_bool)) ∧
    (a.tag = Tag.tensor → b.tag = Tag.tensor →
      a.isSameIdentity b = (a.as_intrusive_ptr == b.as_intrusive_ptr)) ∧
    (a.tag = Tag.tensor → a.is_intrusive_ptr = false → b.tag = Tag.none →
      a.isSameIdentity b = true ∧ b.isSameIdentity a = true) ∧
    (¬(a.tag = Tag.none ∧ b.tag = Tag.none) →
      ¬(a.tag = Tag.bool ∧ b.tag = Tag.bool) →
      ¬(a.tag = Tag.tensor ∧ b.tag = Tag.tensor) →
      ¬(a.tag = Tag.tensor ∧ b.tag = Tag.none) →
      ¬(a.tag = Tag.none ∧ b.tag = Tag.tensor) →
      a.isSameIdentity b = true →
        a.is_intrusive_ptr = true ∧ b.is_intrusive_ptr = true ∧
          a.as_intrusive_ptr = b.as_intrusive_ptr) ∧
    (a.tag = Tag.genericList → b.tag = Tag.genericList →
      a.as_intrusive_ptr ≠ b.as_intrusive_ptr → a.isSameIdentity b = false) := by
  refine ⟨?_, ?_, ?_, ?_, ?_, ?_⟩
  · intro ha hb
    simp [IValue.isSameIdentity, IValue.isNone, ha, hb]
  · intro ha hb
    simp [IValue.isSameIdentity, IValue.isNone, IValue.isBool, ha, hb]
  · intro ha hb
    simp [IValue.isSameIdentity, IValue.isNone, IValue.isBool, IValue.isTensor, ha, hb]
  · intro ha hp hb
    constructor
    · simp [IValue.isSameIdentity, IValue.isNone, IValue.isBool, IValue.isTensor, ha, hb, hp]
    · simp [IValue.isSameIdentity, IValue.isNone, IValue.isBool, IValue.isTensor, ha, hb, hp]
  · intro h1 h2 h3 h4 h5 hs
    simp only [IValue.isSameIdentity, IValue.isNone, IValue.isBool, IValue.isTensor] at hs
    rw [if_neg, if_neg, if_neg, if_neg, if_neg] at hs
    · simpa [Bool.and_eq_true, beq_iff_eq, and_assoc] using hs
    · simp only [Bool.and_eq_true, beq_iff_eq]
      exact fun h => h5 ⟨h.1, h.2⟩
    · simp only [Bool.and_eq_true, beq_iff_eq]
      exact fun h => h4 ⟨h.1, h.2⟩
    · simp only [Bool.and_eq_true, beq_iff_eq]
      exact fun h => h3 ⟨h.1, h.2⟩
    · simp only [Bool.and_eq_true, beq_iff_eq]
      exact fun h => h2 ⟨h.1, h.2⟩
    · simp only [Bool.and_eq_true, beq_iff_eq]
      exact fun h => h1 ⟨h.1, h.2⟩
  · intro ha hb hne
    simp [IValue.isSameIdentity, IValue.isNone, IValue.isBool, IValue.isTensor, ha, hb, hne]

/-- C5 witness: the table at concrete values — two None values, two true
booleans, an undefined tensor against None both ways, and two
identical-content generic lists at addresses 1 and 2 comparing false. -/
theorem isSameIdentity_spec_witness :
    ({ tag := Tag.none } : IValue).isSameIdentity { tag := Tag.none } = true ∧
    ({ tag := Tag.genericList, as_intrusive_ptr := 1, is_intrusive_ptr := true } : IValue).isSameIdentity
      { tag := Tag.genericList, as_intrusive_ptr := 2, is_intrusive_ptr := true } = false := by
  have h := isSameIdentity_spec { tag := Tag.none } { tag := Tag.none }
  have h2 := isSameIdentity_spec
    ({ tag := Tag.genericList, as_intrusive_ptr := 1, is_intrusive_ptr := true } : IValue)
    ({ tag := Tag.genericList, as_intrusive_ptr := 2, is_intrusive_ptr := true } : IValue)
  exact ⟨h.1 rfl rfl, h2.2.2.2.2.2 rfl rfl (by decide)⟩

/-- C1 counterexample: the claim says the moving (rvalue) extraction of an
Object-tagged value reclaims the pointer and leaves the source None with no
net reference-count change; at the concrete value at address 5 with
refcount 1, the rvalue toObject instead leaves the source Object-tagged and
still owning, and the count rises to 2. -/
theorem toObject_rv_counterexample :
    (IValue.toObject_rv (fun _ => 1)
        { tag := Tag.object, as_intrusive_ptr := 5, is_intrusive_ptr := true }).map
      (fun r => (r.1, r.2.1 5, r.2.2.tag, r.2.2.is_intrusive_ptr))
      = Except.ok (5, 2, Tag.object, true) ∧ Tag.object ≠ Tag.none := by
  exact ⟨rfl, by decide⟩

/-- C1 (amended): for every owning-pointer variant except Object — future,
string, tensor, blob, the four homogeneous list kinds, generic list,
generic dict, tuple — the moving extraction accessor returns exactly the
pointer the source owned, leaves the heap counts untouched (reclaim: no net
change), and resets the source to the None tag with no owned pointer; the
Object rvalue accessor instead aliases: it returns the same pointer but
increments its count and leaves the source value unchanged. -/
theorem move_accessors_spec (heap : Heap) (v : IValue) :
    (v.tag = Tag.future →
      v.toFuture_rv heap = Except.ok (v.as_intrusive_ptr, heap, v.clearToNone)) ∧
    (v.tag = Tag.string →
      v.toString_rv heap = Except.ok (v.as_intrusive_ptr, heap, v.clearToNone)) ∧
    (v.tag = Tag.tensor →
      v.toTensor_rv heap = Except.ok (v.as_intrusive_ptr, heap, v.clearToNone)) ∧
    (v.tag = Tag.blob →
      v.toBlob_rv heap = Except.ok (v.as_intrusive_ptr, heap, v.clearToNone)) ∧
    (v.tag = Tag.intList →
      v.toIntList_rv heap = Except.ok (v.as_intrusive_ptr, heap, v.clearToNone)) ∧
    (v.tag = Tag.doubleList →
      v.toDoubleList_rv heap = Except.ok (v.as_intrusive_ptr, heap, v.clearToNone)) ∧
    (v.tag = Tag.boolList →
      v.toBoolList_rv heap = Except.ok (v.as_intrusive_ptr, heap, v.clearToNone)) ∧
    (v.tag = Tag.tensorList →
      v.toTensorList_rv heap = Except.ok (v.as_intrusive_ptr, heap, v.clearToNone)) ∧
    (v.tag = Tag.genericList →
      v.toGenericList_rv heap = Except.ok (v.as_intrusive_ptr, heap, v.clearToNone)) ∧
    (v.tag = Tag.genericDict →
      v.toGenericDict_rv heap = Except.ok (v.as_intrusive_ptr, heap, v.clearToNone)) ∧
    (v.tag = Tag.tuple →
      v.toTuple_rv heap = Except.ok (v.as_intrusive_ptr, heap, v.clearToNone)) ∧
    (v.clearToNone.tag = Tag.none ∧ v.clearToNone.is_intrusive_ptr = false) ∧
    (v.tag = Tag.object →
      v.toObject_rv heap
          = Except.ok (v.as_intrusive_ptr, heap.incref v.as_intrusive_ptr, v) ∧
        heap.incref v.as_intrusive_ptr v.as_intrusive_ptr = heap v.as_intrusive_ptr + 1) := by
  refine ⟨?_, ?_, ?_, ?_, ?_, ?_, ?_, ?_, ?_, ?_, ?_, ⟨rfl, rfl⟩, ?_⟩
  · intro h; simp [IValue.toFuture_rv, h, IValue.moveToIntrusivePtr]
  · intro h; simp [IValue.toString_rv, h, IValue.moveToIntrusivePtr]
  · intro h; simp [IValue.toTensor_rv, h, IValue.moveToIntrusivePtr]
  · intro h; simp [IValue.toBlob_rv, h, IValue.moveToIntrusivePtr]
  · intro h; simp [IValue.toIntList_rv, h, IValue.moveToIntrusivePtr]
  · intro h; simp [IValue.toDoubleList_rv, h, IValue.moveToIntrusivePtr]
  · intro h; simp [IValue.toBoolList_rv, h, IValue.moveToIntrusivePtr]
  · intro h; simp [IValue.toTensorList_rv, h, IValue.moveToIntrusivePtr]
  · intro h; simp [IValue.toGenericList_rv, h, IValue.moveToIntrusivePtr]
  · intro h; simp [IValue.toGenericDict_rv, h, IValue.moveToIntrusivePtr]
  · intro h; simp [IValue.toTuple_rv, h, IValue.moveToIntrusivePtr]
  · intro h
    refine ⟨by simp [IValue.toObject_rv, h, IValue.toIntrusivePtr], ?_⟩
    simp [Heap.incref]

/-- C1 witness: the amended statement applied to a Future-tagged value at
address 3 and an Object-tagged value at address 5, each over the constant-1
refcount heap. -/
theorem move_accessors_spec_witness :
    IValue.toFuture_rv (fun _ => 1)
        { tag := Tag.future, as_intrusive_ptr := 3, is_intrusive_ptr := true }
      = Except.ok (3, (fun _ => 1 : Heap),
          IValue.clearToNone
            { tag := Tag.future, as_intrusive_ptr := 3, is_intrusive_ptr := true }) ∧
    IValue.toObject_rv (fun _ => 1)
        { tag := Tag.object, as_intrusive_ptr := 5, is_intrusive_ptr := true }
      = Except.ok (5, Heap.incref (fun _ => 1) 5,
          ({ tag := Tag.object, as_intrusive_ptr := 5, is_intrusive_ptr := true } : IValue)) :=
  ⟨(move_accessors_spec (fun _ => 1)
      { tag := Tag.future, as_intrusive_ptr := 3, is_intrusive_ptr := true }).1 rfl,
   ((move_accessors_spec (fun _ => 1)
      { tag := Tag.object, as_intrusive_ptr := 5, is_intrusive_ptr := true
        }).2.2.2.2.2.2.2.2.2.2.2.2 rfl).1⟩

theorem addCallback_completed (s : FutureState) (cb : Nat) :
    ((s.addCallback cb).1).completed_ = s.completed_ := by
  unfold FutureState.addCallback
  split <;> rfl

theorem stepF_completed (s : FutureState) (op : FOp) :
    (s.stepF op).completed_ = s.completed_ := by
  cases op with
  | addCb cb => exact addCallback_completed s cb
  | readValue => rfl

theorem runFOps_completed (ops : List FOp) (s : FutureState) :
    (s.runFOps ops).completed_ = s.completed_ := by
  induction ops generalizing s with
  | nil => rfl
  | cons op rest ih =>
      show ((s.stepF op).runFOps rest).completed_ = s.completed_
      rw [ih, stepF_completed]

/-- C2: on a pending Future the first markCompleted (value or error)
succeeds, and every markCompleted after it — either overload, after any
interleaving of addCallback and value reads — hits the fatal assertion. -/
theorem markCompleted_twice_fatal (s : FutureState) (k1 k2 : MarkKind) (ops : List FOp)
    (h : s.completed_ = false) :
    (∃ s1 tr1, FutureState.markCompleted k1 s = Except.ok (s1, tr1)) ∧
    (∀ s1 tr1, FutureState.markCompleted k1 s = Except.ok (s1, tr1) →
      s1.completed_ = true ∧
        FutureState.markCompleted k2 (s1.runFOps ops) = Except.error Fatal.assertFailed) := by
  constructor
  · cases k1 with
    | val v =>
        refine ⟨{ s with completed_ := true, value_ := v, callbacks := [] },
          s.callbacks, ?_⟩
        simp [FutureState.markCompleted, FutureState.completed, h,
          FutureState.fireCallbacks]
    | err m =>
        refine ⟨{ s with completed_ := true, has_error := true, error := m, callbacks := [] }, s.callbacks, ?_⟩
        simp [FutureState.markCompleted, FutureState.completed, h,
          FutureState.fireCallbacks]
  · intro s1 tr1 heq
    have hs1 : s1.completed_ = true := by
      cases k1 with
      | val v =>
          simp [FutureState.markCompleted, FutureState.completed, h,
            FutureState.fireCallbacks] at heq
          rw [← heq.1]
      | err m =>
          simp [FutureState.markCompleted, FutureState.completed, h,
            FutureState.fireCallbacks] at heq
          rw [← heq.1]
    have hrun : (s1.runFOps ops).completed_ = true := by
      rw [runFOps_completed, hs1]
    refine ⟨hs1, ?_⟩
    cases k2 <;>
      simp [FutureState.markCompleted, FutureState.completed, hrun]

/-- C2 witness: a fresh Future completed first with a value; the second
completion with an error, after an interleaved addCallback, is fatal. -/
theorem markCompleted_twice_fatal_witness :
    FutureState.fresh.completed_ = false ∧
    FutureState.markCompleted (MarkKind.val IValue.noneV) FutureState.fresh
      = Except.ok (({ completed_ := true, value_ := IValue.noneV } : FutureState),
          ([] : List Nat)) ∧
    FutureState.markCompleted (MarkKind.err "boom")
      (FutureState.runFOps { completed_ := true, value_ := IValue.noneV } [FOp.addCb 0])
      = Except.error Fatal.assertFailed := by
  have h := markCompleted_twice_fatal FutureState.fresh (MarkKind.val IValue.noneV)
    (MarkKind.err "boom") [FOp.addCb 0] rfl
  exact ⟨rfl, rfl, (h.2 { completed_ := true, value_ := IValue.noneV } [] rfl).2⟩

theorem addAll_pending (cbs : List Nat) (s : FutureState) (acc : List Nat)
    (h : s.completed_ = false) :
    cbs.foldl (fun p cb => ((p.1.addCallback cb).1, p.2 ++ (p.1.addCallback cb).2)) (s, acc)
      = ({ s with callbacks := s.callbacks ++ cbs }, acc) := by
  induction cbs generalizing s acc with
  | nil => simp
  | cons cb rest ih =>
      have hs : s.addCallback cb = ({ s with callbacks := s.callbacks ++ [cb] }, []) := by
        simp [FutureState.addCallback, FutureState.completed, h]
      rw [List.foldl_cons]
      simp only [hs, List.append_nil]
      rw [ih { s with callbacks := s.callbacks ++ [cb] } acc h]
      simp [List.append_assoc]

/-- C3: on an already-terminal Future, addCallback invokes the callback
synchronously before returning (trace [cb]) and changes nothing; on a
pending Future it appends the callback to the queue with no invocation,
and when markCompleted runs every queued callback fires exactly once, in
registration order, and the queue is drained. -/
theorem addCallback_order_spec (s : FutureState) (cb : Nat) (cbs : List Nat) (k : MarkKind) :
    (s.completed_ = true → s.addCallback cb = (s, [cb])) ∧
    (s.completed_ = false →
      s.addCallback cb = ({ s with callbacks := s.callbacks ++ [cb] }, []) ∧
      (s.addAll cbs).2 = [] ∧
      (∀ s1 tr, FutureState.markCompleted k (s.addAll cbs).1 = Except.ok (s1, tr) →
        tr = s.callbacks ++ cbs ∧ s1.callbacks = [])) := by
  constructor
  · intro h
    simp [FutureState.addCallback, FutureState.completed, h]
  · intro h
    have hall := addAll_pending cbs s [] h
    refine ⟨by simp [FutureState.addCallback, FutureState.completed, h], ?_, ?_⟩
    · show (s.addAll cbs).2 = []
      rw [FutureState.addAll, hall]
    · intro s1 tr heq
      rw [show s.addAll cbs = ({ s with callbacks := s.callbacks ++ cbs }, []) from hall] at heq
      cases k with
      | val v =>
          simp [FutureState.markCompleted, FutureState.completed, h,
            FutureState.fireCallbacks] at heq
          exact ⟨heq.2.symm, by rw [← heq.1]⟩
      | err m =>
          simp [FutureState.markCompleted, FutureState.completed, h,
            FutureState.fireCallbacks] at heq
          exact ⟨heq.2.symm, by rw [← heq.1]⟩

/-- C3 witness: a terminal Future invokes callback 7 immediately; a pending
Future with queue [1, 2] enqueues 3 then 4 silently, and markCompleted
fires [1, 2, 3, 4] in registration order, draining the queue. -/
theorem addCallback_order_spec_witness :
    ({ completed_ := true } : FutureState).addCallback 7
      = ({ completed_ := true }, [7]) ∧
    ({ callbacks := [1, 2] } : FutureState).addCallback 3
      = ({ callbacks := [1, 2, 3] }, []) ∧
    (FutureState.addAll { callbacks := [1, 2] } [3, 4]).2 = [] ∧
    ([1, 2, 3, 4] : List Nat) = [1, 2] ++ [3, 4] := by
  have hA := (addCallback_order_spec { completed_ := true } 7 []
    (MarkKind.val IValue.noneV)).1 rfl
  have hB := (addCallback_order_spec ({ callbacks := [1, 2] } : FutureState) 3 [3, 4]
    (MarkKind.val IValue.noneV)).2 rfl
  refine ⟨hA, hB.1, hB.2.1, ?_⟩
  exact (hB.2.2 { completed_ := true, value_ := IValue.noneV, callbacks := [] }
    [1, 2, 3, 4] rfl).1

theorem setSlot_length (o : Object) (i : Nat) (v : IValue) :
    (o.setSlot i v).slots_.length = max (i + 1) o.slots_.length := by
  unfold Object.setSlot Object.resizeObject
  by_cases h : o.slots_.length ≤ i
  · simp only [if_pos h, List.length_set, List.length_append, List.length_replicate]
    omega
  · simp only [if_neg h, List.length_set]
    omega

theorem applyOp_length_mono (o : Object) (op : ObjOp) :
    o.slots_.length ≤ (o.applyOp op).slots_.length := by
  cases op with
  | set i v => rw [Object.applyOp, setSlot_length]; omega
  | get i => exact Nat.le_refl _

theorem runOps_length_mono (ops : List ObjOp) (o : Object) :
    o.slots_.length ≤ (o.runOps ops).slots_.length := by
  induction ops generalizing o with
  | nil => exact Nat.le_refl _
  | cons op rest ih =>
      exact Nat.le_trans (applyOp_length_mono o op) (ih (o.applyOp op))

/-- C8: constructing with n slots gives n slots; setSlot at or beyond the
current length grows the vector to exactly index + 1 entries, leaves every
intervening new slot None, and stores the value; getSlot fails exactly on
indices at or beyond the length; and over any operation sequence the length
never decreases and ends at least one past every slot index ever written. -/
theorem object_slots_spec (o : Object) (n i : Nat) (v : IValue) (ops : List ObjOp) :
    (Object.mk0 n).slots_.length = n ∧
    (o.slots_.length ≤ i →
      (o.setSlot i v).slots_.length = i + 1 ∧
      (∀ j, o.slots_.length ≤ j → j < i → (o.setSlot i v).getSlot j = some IValue.noneV) ∧
      (o.setSlot i v).getSlot i = some v) ∧
    (o.getSlot i = none ↔ o.slots_.length ≤ i) ∧
    o.slots_.length ≤ (o.runOps ops).slots_.length ∧
    (∀ k ∈ writtenSlots ops, k + 1 ≤ (o.runOps ops).slots_.length) := by
  refine ⟨List.length_replicate n IValue.noneV, ?_, ?_, runOps_length_mono ops o, ?_⟩
  · intro h
    refine ⟨by rw [setSlot_length]; omega, ?_, ?_⟩
    · intro j hj1 hj2
      show (o.setSlot i v).slots_[j]? = some IValue.noneV
      unfold Object.setSlot Object.resizeObject
      simp only [if_pos h]
      rw [List.getElem?_set_ne (by omega)]
      rw [List.getElem?_append_right hj1]
      have hlt : j - o.slots_.length < i + 1 - o.slots_.length := by omega
      simp [List.getElem?_replicate, hlt]
    · show (o.setSlot i v).slots_[i]? = some v
      unfold Object.setSlot Object.resizeObject
      simp only [if_pos h]
      exact List.getElem?_set_eq_of_lt v
        (by simp only [List.length_append, List.length_replicate]; omega)
  · exact List.getElem?_eq_none_iff
  · induction ops generalizing o with
    | nil => intro k hk; simp [writtenSlots] at hk
    | cons op rest ih =>
        intro k hk
        cases op with
        | set i2 v2 =>
            simp only [writtenSlots, List.filterMap_cons] at hk
            rcases List.mem_cons.mp hk with hk1 | hk2
            · subst hk1
              refine Nat.le_trans ?_ (runOps_length_mono rest (o.applyOp (ObjOp.set k v2)))
              show k + 1 ≤ (o.setSlot k v2).slots_.length
              rw [setSlot_length]; omega
            · exact ih (o.applyOp (ObjOp.set i2 v2)) k hk2
        | get i2 =>
            simp only [writtenSlots, List.filterMap_cons] at hk
            exact ih (o.applyOp (ObjOp.get i2)) k hk

/-- C8 witness: an object built with 2 slots, written at slot 4: length
grows to 5, slots 2 and 3 read back None, slot 4 reads back the value,
slot 7 fails; a set-then-get sequence keeps the length at least 5. -/
theorem object_slots_spec_witness :
    (Object.mk0 2).slots_.length = 2 ∧
    ((Object.mk0 2).setSlot 4 { tag := Tag.int, as_int := 9 }).slots_.length = 5 ∧
    ((Object.mk0 2).setSlot 4 { tag := Tag.int, as_int := 9 }).getSlot 3
      = some IValue.noneV ∧
    ((Object.mk0 2).setSlot 4 { tag := Tag.int, as_int := 9 }).getSlot 4
      = some { tag := Tag.int, as_int := 9 } ∧
    ((Object.mk0 2).getSlot 7 = none ↔ (Object.mk0 2).slots_.length ≤ 7) ∧
    5 ≤ ((Object.mk0 2).runOps [ObjOp.set 4 IValue.noneV, ObjOp.get 9]).slots_.length := by
  have h := object_slots_spec (Object.mk0 2) 2 4 { tag := Tag.int, as_int := 9 }
    [ObjOp.set 4 IValue.noneV, ObjOp.get 9]
  have h7 := object_slots_spec (Object.mk0 2) 2 7 { tag := Tag.int, as_int := 9 }
    [ObjOp.set 4 IValue.noneV, ObjOp.get 9]
  refine ⟨h.1, (h.2.1 (by decide)).1, (h.2.1 (by decide)).2.1 3 (by decide) (by decide),
    (h.2.1 (by decide)).2.2, h7.2.2.1, ?_⟩
  exact h.2.2.2.2 4 (by decide)

/-- C4: value() on a pending Future is a fatal assertion; on a Future
terminal with an error it re-raises the stored error; on a Future terminal
with a value it returns the stored value. -/
theorem value_spec (s : FutureState) :
    (s.completed_ = false → s.valueOp = ValueOutcome.fatal) ∧
    (s.completed_ = true → s.has_error = true → s.valueOp = ValueOutcome.raised s.error) ∧
    (s.completed_ = true → s.has_error = false →
      s.valueOp = ValueOutcome.returned s.value_) := by
  refine ⟨?_, ?_, ?_⟩
  · intro h
    simp [FutureState.valueOp, FutureState.completed, h]
  · intro h he
    simp [FutureState.valueOp, FutureState.completed, h, he]
  · intro h he
    simp [FutureState.valueOp, FutureState.completed, h, he]

/-- C4 witness: value() on the fresh pending Future is fatal; on an
error-completed Future it raises the message; on a value-completed Future
it returns the value. -/
theorem value_spec_witness :
    FutureState.fresh.valueOp = ValueOutcome.fatal ∧
    ({ completed_ := true, has_error := true, error := "bad" } : FutureState).valueOp
      = ValueOutcome.raised "bad" ∧
    ({ completed_ := true, value_ := { tag := Tag.int, as_int := 3 } } : FutureState).valueOp
      = ValueOutcome.returned { tag := Tag.int, as_int := 3 } :=
  ⟨(value_spec FutureState.fresh).1 rfl,
   (value_spec { completed_ := true, has_error := true, error := "bad" }).2.1 rfl rfl,
   (value_spec { completed_ := true, value_ := { tag := Tag.int, as_int := 3 } }).2.2 rfl rfl⟩

theorem invokesUnlocked_map (l : List Nat) :
    invokesUnlocked false (l.map Ev.invoke) = true := by
  induction l with
  | nil => rfl
  | cons cb rest ih => simpa [invokesUnlocked] using ih

/-- C9: in the event traces of markCompleted and addCallback, every
callback body runs with the internal lock free: markCompleted writes the
terminal state under the lock, releases it, and only then invokes the
queued callbacks, and addCallback on a terminal Future unlocks before
invoking the callback. -/
theorem callbacks_run_unlocked (s : FutureState) (cb : Nat) :
    invokesUnlocked false (markCompletedEvents s) = true ∧
    invokesUnlocked false (addCallbackEvents s cb) = true ∧
    (s.completed_ = false →
      markCompletedEvents s
        = [Ev.acquire, Ev.setCompleted, Ev.release] ++ s.callbacks.map Ev.invoke) ∧
    (s.completed_ = true →
      addCallbackEvents s cb = [Ev.acquire, Ev.release, Ev.invoke cb]) := by
  by_cases h : s.completed_ = true
  · refine ⟨?_, ?_, ?_, ?_⟩
    · simp [markCompletedEvents, FutureState.completed, h, invokesUnlocked]
    · simp [addCallbackEvents, FutureState.completed, h, invokesUnlocked]
    · intro hc; rw [h] at hc; cases hc
    · intro _; simp [addCallbackEvents, FutureState.completed, h]
  · have h0 : s.completed_ = false := by
      cases hx : s.completed_
      · rfl
      · exact absurd hx h
    refine ⟨?_, ?_, ?_, ?_⟩
    · simp only [markCompletedEvents, FutureState.completed, h0, Bool.false_eq_true,
        if_false, List.cons_append, List.nil_append]
      simpa [invokesUnlocked] using invokesUnlocked_map s.callbacks
    · simp [addCallbackEvents, FutureState.completed, h0, invokesUnlocked]
    · intro _; simp [markCompletedEvents, FutureState.completed, h0]
    · intro hc; rw [h0] at hc; cases hc

/-- C9 witness: the trace facts at a pending Future with queued callbacks
[1, 2] and at a terminal Future with callback 7. -/
theorem callbacks_run_unlocked_witness :
    invokesUnlocked false (markCompletedEvents { callbacks := [1, 2] }) = true ∧
    markCompletedEvents ({ callbacks := [1, 2] } : FutureState)
      = [Ev.acquire, Ev.setCompleted, Ev.release, Ev.invoke 1, Ev.invoke 2] ∧
    addCallbackEvents ({ completed_ := true } : FutureState) 7
      = [Ev.acquire, Ev.release, Ev.invoke 7] :=
  ⟨(callbacks_run_unlocked { callbacks := [1, 2] } 7).1,
   (callbacks_run_unlocked { callbacks := [1, 2] } 7).2.2.1 rfl,
   (callbacks_run_unlocked { completed_ := true } 7).2.2.2 rfl⟩

/-- C7: converting a tagged value to an optional yields the empty optional
exactly when the value holds the None tag, and otherwise the recursive
element conversion wrapped in some; the member toOptional agrees with the
generic conversion. -/
theorem to_optional_spec {α : Type} (conv : IValue → Except Fatal α) (v : IValue) :
    (generic_to_optional conv v = Except.ok Option.none ↔ v.tag = Tag.none) ∧
    (v.tag ≠ Tag.none → generic_to_optional conv v = (conv v).map Option.some) ∧
    IValue.toOptional conv v = generic_to_optional conv v := by
  refine ⟨?_, ?_, rfl⟩
  · by_cases h : v.tag = Tag.none
    · simp [generic_to_optional, IValue.isNone, h]
    · simp only [generic_to_optional, IValue.isNone, beq_iff_eq, h, if_false,
        iff_false]
      cases hconv : conv v <;> simp [hconv, Except.map]
  · intro h
    simp [generic_to_optional, IValue.isNone, h]

/-- C7 witness: with the integer conversion, None converts to the empty
optional and an Int-tagged value converts to some of its payload. -/
theorem to_optional_spec_witness :
    generic_to_optional (fun w => Except.ok w.as_int) IValue.noneV
      = Except.ok Option.none ∧
    generic_to_optional (fun w => Except.ok w.as_int)
        { tag := Tag.int, as_int := 42 }
      = Except.ok (Option.some 42) := by
  refine ⟨(to_optional_spec (fun w => Except.ok w.as_int) IValue.noneV).1.mpr rfl, ?_⟩
  exact ((to_optional_spec (fun w => Except.ok w.as_int)
    { tag := Tag.int, as_int := 42 }).2.1 (by decide)).trans rfl

theorem copyElems_acc (l acc : List α) :
    l.foldl (fun a e => a ++ [e]) acc = acc ++ l := by
  induction l generalizing acc with
  | nil => simp
  | cons e rest ih => simp [ih]

theorem copyElems_eq (l : List α) : copyElems l = l := by
  simpa using copyElems_acc l []

/-- C6: converting an erased-list value to an owned vector deep-copies the
elements of the backing store; converting twice and mutating one result
leaves the other result and the backing store, read through an aliased
typed view, equal to the original contents — whereas writing through an
aliased store handle is what changes the view read. -/
theorem vector_deep_copy {α : Type} (heap : ListHeap α) (tg : Tag) (v : IValue)
    (h : v.tag = tg) (i : Nat) (x : α) :
    generic_to_vector heap tg v = Except.ok (heap v.as_intrusive_ptr) ∧
    deepCopyScenario heap tg v i x
      = Except.ok ((heap v.as_intrusive_ptr).set i x, heap v.as_intrusive_ptr,
          heap v.as_intrusive_ptr) ∧
    viewRead (listStoreSet heap v.as_intrusive_ptr i x) v.as_intrusive_ptr
      = (heap v.as_intrusive_ptr).set i x := by
  have hv : generic_to_vector heap tg v = Except.ok (heap v.as_intrusive_ptr) := by
    simp [generic_to_vector, toListPtr_rv, h, copyElems_eq, Except.map]
  refine ⟨hv, ?_, ?_⟩
  · unfold deepCopyScenario
    rw [hv]
    rfl
  · simp [viewRead, listStoreSet]

/-- C6 witness: store address 1 holds [10, 20]; both conversions return
[10, 20], overwriting element 0 of the first copy with 99 leaves the second
copy and the aliased view read at [10, 20], and a store write is what moves
the view read to [99, 20]. -/
theorem vector_deep_copy_witness :
    generic_to_vector (fun _ => [10, 20]) Tag.genericList
        { tag := Tag.genericList, as_intrusive_ptr := 1, is_intrusive_ptr := true }
      = Except.ok [10, 20] ∧
    deepCopyScenario (fun _ => [10, 20]) Tag.genericList
        { tag := Tag.genericList, as_intrusive_ptr := 1, is_intrusive_ptr := true } 0 99
      = Except.ok ([99, 20], [10, 20], [10, 20]) :=
  ⟨(vector_deep_copy (fun _ => [10, 20]) Tag.genericList
      { tag := Tag.genericList, as_intrusive_ptr := 1, is_intrusive_ptr := true }
      rfl 0 99).1,
   (vector_deep_copy (fun _ => [10, 20]) Tag.genericList
      { tag := Tag.genericList, as_intrusive_ptr := 1, is_intrusive_ptr := true }
      rfl 0 99).2.1⟩

/-- C10: a tagged value constructed from an empty optional is the
default-constructed None value — None tag, no owned pointer — and
converting it back to an optional yields the empty optional, for any
element constructor and any element conversion. -/
theorem fromOptional_none_roundtrip {α β : Type} (mk : α → IValue)
    (conv : IValue → Except Fatal β) :
    IValue.fromOptional mk Option.none = IValue.noneV ∧
    (IValue.fromOptional mk Option.none).tag = Tag.none ∧
    (IValue.fromOptional mk Option.none).is_intrusive_ptr = false ∧
    generic_to_optional conv (IValue.fromOptional mk Option.none)
      = Except.ok Option.none :=
  ⟨rfl, rfl, rfl, rfl⟩

end IValueModel
